import Mathlib

/-!
Verification development for the nodemcu-ts binding layer.

The repository consists of ambient TypeScript declaration files describing
the NodeMCU firmware API (timers, sockets, WiFi event monitor, RTC time and
RTC memory).  The behavioural contracts are stated in the declarations' doc
comments and in the accompanying specification; the executable behaviour is
not part of the repository, so each component below is an explicit
operational model built from those documented contracts.
-/

namespace NodeMCU

/-! ## Timer registry (tmr module) -/

/-- Timer modes, embedded from the `tmr.Mode` enum of the source
(`ALARM_SINGLE = 0`, `ALARM_AUTO = 1`, `ALARM_SEMI = 2`). -/
inductive TmrMode
  | ALARM_SINGLE
  | ALARM_AUTO
  | ALARM_SEMI
deriving DecidableEq, Repr

/-- Numeric values of the `tmr.Mode` enum members, from the source. -/
def TmrMode.toNat : TmrMode → Nat
  | .ALARM_SINGLE => 0
  | .ALARM_AUTO => 1
  | .ALARM_SEMI => 2

/-- Configuration bound to a timer by `register`: interval in milliseconds,
mode, and the registered callback (identified by a number). -/
structure TimerConfig where
  intervalMs : Nat
  mode : TmrMode
  cb : Nat
deriving DecidableEq, Repr

/-- Modelled from the spec: the state of one timer object — optional
configuration (absent for an unconfigured timer), running flag, and the
milliseconds remaining until expiry while running. -/
structure TimerState where
  config : Option TimerConfig
  running : Bool
  remainingMs : Nat
deriving DecidableEq, Repr

/-- The unconfigured timer state: no configuration, not running. -/
def TimerState.unconfigured : TimerState :=
  { config := none, running := false, remainingMs := 0 }

/-- Modelled from the spec: `tmr.create()` allocates a detached
(unconfigured) timer handle. -/
def tmrCreate : TimerState := TimerState.unconfigured

/-- Modelled from the spec: `register(interval, mode, callback)` binds
interval, mode and callback without starting the timer. -/
def tmrRegister (_s : TimerState) (intervalMs : Nat) (mode : TmrMode)
    (cb : Nat) : TimerState :=
  { config := some ⟨intervalMs, mode, cb⟩, running := false, remainingMs := 0 }

/-- Modelled from the spec: `start()` arms a previously configured timer and
returns `true`; on an unregistered timer it fails silently with `false` and
leaves the state unchanged (it does not raise). -/
def tmrStart (s : TimerState) : Bool × TimerState :=
  match s.config with
  | none => (false, s)
  | some c => (true, { s with running := true, remainingMs := c.intervalMs })

/-- Modelled from the spec: `stop()` halts a running timer without
discarding its configuration; fails with `false` on an unregistered timer. -/
def tmrStop (s : TimerState) : Bool × TimerState :=
  match s.config with
  | none => (false, s)
  | some _ => (true, { s with running := false })

/-- Modelled from the spec: `unregister()` stops the timer (if running) and
discards the configuration, returning the timer to the unconfigured state. -/
def tmrUnregister (_s : TimerState) : TimerState := TimerState.unconfigured

/-- Modelled from the spec: `state()` returns `(running, mode)` for a
registered timer and the empty/null result (`none`) for an unconfigured
timer. -/
def tmrState (s : TimerState) : Option (Bool × Nat) :=
  s.config.map fun c => (s.running, c.mode.toNat)

/-- Modelled from the spec: `alarm(...)` is `register` followed by `start`
in a single call. -/
def tmrAlarm (s : TimerState) (intervalMs : Nat) (mode : TmrMode)
    (cb : Nat) : Bool × TimerState :=
  tmrStart (tmrRegister s intervalMs mode cb)

/-- Modelled from the spec: one millisecond of time passing for a timer.
A running timer counts down; on expiry it invokes its callback once and
then, depending on mode: a single-shot timer (`ALARM_SINGLE`) unregisters
itself, an auto-repeat timer reloads its interval, and a semi-auto timer
stops while keeping its configuration.  Returns the new state together with
the list of callbacks fired during this millisecond. -/
def tmrTick (s : TimerState) : TimerState × List Nat :=
  match s.config with
  | none => (s, [])
  | some c =>
    if s.running then
      if s.remainingMs ≤ 1 then
        match c.mode with
        | .ALARM_SINGLE => (TimerState.unconfigured, [c.cb])
        | .ALARM_AUTO => ({ s with remainingMs := c.intervalMs }, [c.cb])
        | .ALARM_SEMI => ({ s with running := false, remainingMs := 0 }, [c.cb])
      else ({ s with remainingMs := s.remainingMs - 1 }, [])
    else (s, [])

/-- Run `n` milliseconds of time against a timer, collecting every callback
invocation in order. -/
def tmrRunTicks (s : TimerState) : Nat → TimerState × List Nat
  | 0 => (s, [])
  | n + 1 =>
    let p := tmrTick s
    let q := tmrRunTicks p.1 n
    (q.1, p.2 ++ q.2)

theorem tmrTick_unconfigured :
    tmrTick TimerState.unconfigured = (TimerState.unconfigured, []) := rfl

theorem tmrRunTicks_unconfigured (n : Nat) :
    tmrRunTicks TimerState.unconfigured n = (TimerState.unconfigured, []) := by
  induction n with
  | zero => rfl
  | succ n ih =>
    simp [tmrRunTicks, tmrTick_unconfigured, ih]

theorem tmrRunTicks_single_fires (ms cb k n : Nat) (hk : 0 < k) (hkn : k ≤ n) :
    tmrRunTicks ⟨some ⟨ms, TmrMode.ALARM_SINGLE, cb⟩, true, k⟩ n
      = (TimerState.unconfigured, [cb]) := by
  induction n generalizing k with
  | zero => omega
  | succ n ih =>
    by_cases h1 : k ≤ 1
    · have hk1 : k = 1 := by omega
      subst hk1
      simp [tmrRunTicks, tmrTick, tmrRunTicks_unconfigured]
    · have hstep : tmrTick ⟨some ⟨ms, TmrMode.ALARM_SINGLE, cb⟩, true, k⟩
          = (⟨some ⟨ms, TmrMode.ALARM_SINGLE, cb⟩, true, k - 1⟩, ([] : List Nat)) := by
        simp [tmrTick, h1]
      simp only [tmrRunTicks, hstep]
      rw [ih (k - 1) (by omega) (by omega)]
      simp

/-- Claim C3: a timer registered with mode `ALARM_SINGLE` and started
successfully fires its callback exactly once when the interval elapses, and
then transitions to the unconfigured state without an explicit
`unregister()` call, so a subsequent `state()` returns the empty/null
result. -/
theorem single_shot_fires_once_then_unconfigured (ms cb n : Nat)
    (hms : 0 < ms) (hn : ms ≤ n) :
    (tmrStart (tmrRegister tmrCreate ms TmrMode.ALARM_SINGLE cb)).1 = true ∧
    tmrRunTicks (tmrStart (tmrRegister tmrCreate ms TmrMode.ALARM_SINGLE cb)).2 n
      = (TimerState.unconfigured, [cb]) ∧
    tmrState
      (tmrRunTicks (tmrStart (tmrRegister tmrCreate ms TmrMode.ALARM_SINGLE cb)).2 n).1
      = none := by
  have hstart : tmrStart (tmrRegister tmrCreate ms TmrMode.ALARM_SINGLE cb)
      = (true, ⟨some ⟨ms, TmrMode.ALARM_SINGLE, cb⟩, true, ms⟩) := rfl
  rw [hstart]
  refine ⟨rfl, ?_, ?_⟩
  · exact tmrRunTicks_single_fires ms cb ms n hms hn
  · rw [tmrRunTicks_single_fires ms cb ms n hms hn]
    rfl

/-- Witness for claim C3 at the spec scenario: interval 5000 ms,
single-shot mode, observed for 5000 ms. -/
theorem single_shot_fires_once_then_unconfigured_witness :
    (tmrStart (tmrRegister tmrCreate 5000 TmrMode.ALARM_SINGLE 7)).1 = true ∧
    tmrRunTicks (tmrStart (tmrRegister tmrCreate 5000 TmrMode.ALARM_SINGLE 7)).2 5000
      = (TimerState.unconfigured, [7]) ∧
    tmrState
      (tmrRunTicks (tmrStart (tmrRegister tmrCreate 5000 TmrMode.ALARM_SINGLE 7)).2 5000).1
      = none :=
  single_shot_fires_once_then_unconfigured 5000 7 5000 (by omega) (by omega)

/-- Claim C4: calling `start()` on an unregistered timer returns `false`,
does not raise (the operation is total), and leaves the timer's state
unchanged. -/
theorem start_unregistered_fails_silently (s : TimerState)
    (h : s.config = none) : tmrStart s = (false, s) := by
  unfold tmrStart
  rw [h]

/-- Witness for claim C4: starting a freshly created (unregistered) timer
returns `false` and the unchanged state. -/
theorem start_unregistered_fails_silently_witness :
    tmrStart tmrCreate = (false, tmrCreate) :=
  start_unregistered_fails_silently tmrCreate rfl

/-- Claim C5: for every timer state — whatever its prior configuration, run
state or mode — `unregister()` followed by `state()` returns the
unconfigured empty result `none`. -/
theorem unregister_then_state_none (s : TimerState) :
    tmrState (tmrUnregister s) = none := rfl

/-! ## System counters (tmr.now / tmr.time) -/

/-- The 31-bit limit of the system counters, from the source doc comments of
`tmr.now` and `tmr.time` ("Limited to 31 bits, after that it wraps around
back to zero"). -/
def counterLimit : Nat := 2 ^ 31

/-- Modelled from the spec: `tmr.now()` returns the free-running microsecond
system counter truncated to 31 bits, wrapping back to zero on overflow.
`ticksUs` is the unbounded count of elapsed microseconds. -/
def tmrNow (ticksUs : Nat) : Nat := ticksUs % counterLimit

/-- Modelled from the spec: `tmr.time()` returns the system uptime in
seconds truncated to 31 bits, wrapping back to zero on overflow.
`uptimeS` is the unbounded count of elapsed seconds. -/
def tmrTime (uptimeS : Nat) : Nat := uptimeS % counterLimit

/-- Claim C10: `tmr.now()` and `tmr.time()` are limited to 31 bits — every
returned value lies in `[0, 2^31 - 1]`, the counters wrap around back to
zero on overflow rather than raising or saturating, and the arithmetic is
modulo `2^31` (so deltas across a wrap point are discontinuous). -/
theorem tmr_counters_31bit_wrap (t u : Nat) :
    tmrNow t ≤ 2 ^ 31 - 1 ∧ tmrTime u ≤ 2 ^ 31 - 1 ∧
    tmrNow (2 ^ 31) = 0 ∧ tmrTime (2 ^ 31) = 0 ∧
    tmrNow (t + 2 ^ 31) = tmrNow t ∧ tmrTime (u + 2 ^ 31) = tmrTime u := by
  unfold tmrNow tmrTime counterLimit
  refine ⟨?_, ?_, ?_, ?_, ?_, ?_⟩ <;> omega

/-! ## Socket layer (net module) -/

/-- Modelled from the spec: the state of one TCP socket — whether it has
been closed (invalidated), and its optional local and remote address pairs
(port, ip), absent when not bound/connected. -/
structure SocketState where
  closed : Bool
  localAddr : Option (Nat × String)
  remoteAddr : Option (Nat × String)
deriving DecidableEq, Repr

/-- Operations a caller can perform on a TCP socket after creation.
`connect` carries the remote port and host; `send` carries the payload. -/
inductive SockOp
  | close
  | connect (port : Nat) (host : String)
  | send (data : String)
  | hold
  | unhold
deriving DecidableEq, Repr

/-- Modelled from the spec: one socket operation.  `close()` invalidates the
socket and clears its address pairs; operations on an invalidated socket
have no effect on it; `hold`/`unhold` and `send` do not change the
connection state or addresses. -/
def sockStep (s : SocketState) : SockOp → SocketState
  | .close => { closed := true, localAddr := none, remoteAddr := none }
  | .connect p h => if s.closed then s else { s with remoteAddr := some (p, h) }
  | .send _ => s
  | .hold => s
  | .unhold => s

/-- Run a list of socket operations in order. -/
def sockSteps (s : SocketState) : List SockOp → SocketState
  | [] => s
  | op :: ops => sockSteps (sockStep s op) ops

/-- Modelled from the spec: `getaddr()` retrieves the local (port, ip) pair,
or the absent pair for a closed/unbound socket. -/
def sockGetaddr (s : SocketState) : Option (Nat × String) :=
  if s.closed then none else s.localAddr

/-- Modelled from the spec: `getpeer()` retrieves the remote peer's
(port, ip) pair, or the absent pair for a closed/unconnected socket. -/
def sockGetpeer (s : SocketState) : Option (Nat × String) :=
  if s.closed then none else s.remoteAddr

theorem sockStep_closed (s : SocketState) (op : SockOp) (h : s.closed = true) :
    (sockStep s op).closed = true := by
  cases op <;> simp [sockStep, h]

theorem sockSteps_closed (s : SocketState) (ops : List SockOp)
    (h : s.closed = true) : (sockSteps s ops).closed = true := by
  induction ops generalizing s with
  | nil => exact h
  | cons op ops ih => exact ih _ (sockStep_closed s op h)

/-- Claim C6: after `close()` has been called on a socket, every subsequent
`getaddr()` call and every subsequent `getpeer()` call — whatever other
operations happen in between — returns the absent/empty pair rather than a
port/ip pair. -/
theorem closed_socket_addr_queries_absent (s : SocketState)
    (ops : List SockOp) :
    sockGetaddr (sockSteps (sockStep s SockOp.close) ops) = none ∧
    sockGetpeer (sockSteps (sockStep s SockOp.close) ops) = none := by
  have h : (sockSteps (sockStep s SockOp.close) ops).closed = true :=
    sockSteps_closed _ _ rfl
  constructor <;> simp [sockGetaddr, sockGetpeer, h]

/-- Modelled from the spec: the state of one UDP socket — just its optional
local binding (port, ip), absent until `listen` is called.  UDP is
connectionless so there is no peer. -/
structure UdpSocketState where
  bound : Option (Nat × String)
deriving DecidableEq, Repr

/-- Modelled from the spec: `net.createUDPSocket()` creates a fresh, unbound
UDP socket. -/
def createUDPSocket : UdpSocketState := ⟨none⟩

/-- Modelled from the spec: `listen(port)` binds the UDP socket to the given
port on the local interface address `localIp` (the device's address, an
environment parameter of the model). -/
def udpListen (_s : UdpSocketState) (port : Nat) (localIp : String) :
    UdpSocketState :=
  ⟨some (port, localIp)⟩

/-- Modelled from the spec: UDP `getaddr()` returns the local (port, ip)
pair, or the absent pair when the socket is not bound. -/
def udpGetaddr (s : UdpSocketState) : Option (Nat × String) := s.bound

/-- Claim C9: on a freshly created UDP socket, `listen(5000)` followed by
`getaddr()` returns the pair (5000, local-ip) — the requested port together
with the local interface address — rather than the absent pair. -/
theorem udp_listen_then_getaddr (localIp : String) :
    udpGetaddr (udpListen createUDPSocket 5000 localIp)
      = some (5000, localIp) := rfl

/-! ## RTC memory (rtcmem module) -/

/-- The RTC user memory: a fixed array of 128 slots, each one 32-bit value
wide, as documented for the rtcmem module. -/
def RtcMem : Type := Fin 128 → Nat

/-- Modelled from the spec: `rtcmem.read32(idx)` reads the 32-bit value in
slot `idx`; if `idx` is outside the valid range [0,127] it returns nothing
(and never raises — the function is total on all integers). -/
def read32 (m : RtcMem) (idx : Int) : Option Nat :=
  if h : 0 ≤ idx ∧ idx < 128 then
    some (m ⟨idx.toNat, by omega⟩)
  else
    none

/-- Modelled from the spec: `rtcmem.write32(idx, val)` stores `val` in slot
`idx`; writing to an index outside the valid range [0,127] has no effect
(and never raises — the function is total on all integers). -/
def write32 (m : RtcMem) (idx : Int) (val : Nat) : RtcMem :=
  if h : 0 ≤ idx ∧ idx < 128 then
    fun i => if i = (⟨idx.toNat, by omega⟩ : Fin 128) then val else m i
  else
    m

/-- Claim C8: for every integer index outside the valid range [0,127],
`rtcmem.read32` returns the empty result and `rtcmem.write32` leaves all
128 RTC memory slots unchanged; both calls are total (never raise). -/
theorem rtcmem_out_of_range_noop (m : RtcMem) (idx : Int) (val : Nat)
    (h : idx < 0 ∨ 127 < idx) :
    read32 m idx = none ∧ write32 m idx val = m := by
  have hno : ¬(0 ≤ idx ∧ idx < 128) := by omega
  constructor
  · simp [read32, hno]
  · simp [write32, hno]

/-- Witness for claim C8 at the out-of-range index 128: reading returns the
empty result and writing leaves the memory unchanged. -/
theorem rtcmem_out_of_range_noop_witness :
    read32 (fun _ => 0) 128 = none ∧
    write32 (fun _ => 0) 128 5 = (fun _ => 0 : RtcMem) :=
  rtcmem_out_of_range_noop (fun _ => 0) 128 5 (by omega)

/-! ## WiFi event monitor (wifi.eventmon) -/

/-- The nine fixed WiFi event kinds, embedded from the `wifi.eventmon` enum
of the source (`STA_CONNECTED = 0` through `WIFI_MODE_CHANGED = 8`). -/
inductive EvKind
  | STA_CONNECTED
  | STA_DISCONNECTED
  | STA_AUTHMODE_CHANGE
  | STA_GOT_IP
  | STA_DHCP_TIMEOUT
  | AP_STACONNECTED
  | AP_STADISCONNECTED
  | AP_PROBEREQRECVED
  | WIFI_MODE_CHANGED
deriving DecidableEq, Repr

/-- Numeric values of the `wifi.eventmon` enum members, from the source. -/
def EvKind.toNat : EvKind → Nat
  | .STA_CONNECTED => 0
  | .STA_DISCONNECTED => 1
  | .STA_AUTHMODE_CHANGE => 2
  | .STA_GOT_IP => 3
  | .STA_DHCP_TIMEOUT => 4
  | .AP_STACONNECTED => 5
  | .AP_STADISCONNECTED => 6
  | .AP_PROBEREQRECVED => 7
  | .WIFI_MODE_CHANGED => 8

/-- The event-monitor registration table: each of the nine event kinds maps
to at most one callback (identified by a number), or none. -/
def EmTable : Type := EvKind → Option Nat

/-- The initial registration table: no callback registered for any kind. -/
def emInit : EmTable := fun _ => none

/-- Things that happen at the event monitor: a `wifi.eventmon.register`
call by the application, or a firmware event of some kind firing. -/
inductive EmOp
  | register (k : EvKind) (cb : Nat)
  | fire (k : EvKind)
deriving DecidableEq, Repr

/-- Modelled from the spec: one step of the event monitor.
`register k cb` overwrites the table entry for `k` with `cb` (pure
overwrite, no list of subscribers) and delivers nothing; `fire k` delivers
the event to the callback currently registered for `k` — exactly once — or
to nobody when none is registered (the event is dropped, never buffered).
Returns the new table and the list of callback invocations this step. -/
def emStep (t : EmTable) : EmOp → EmTable × List Nat
  | .register k cb => (fun k' => if k' = k then some cb else t k', [])
  | .fire k => (t, (t k).toList)

/-- Run a list of event-monitor operations, collecting for each operation
the list of callback invocations it caused. -/
def emRun (t : EmTable) : List EmOp → EmTable × List (List Nat)
  | [] => (t, [])
  | op :: ops =>
    let p := emStep t op
    let q := emRun p.1 ops
    (q.1, p.2 :: q.2)

/-- The registration table in force just before operation `i` of a trace. -/
def emTableAt (ops : List EmOp) (i : Nat) : EmTable :=
  (emRun emInit (ops.take i)).1

theorem emRun_out_get (t : EmTable) (ops : List EmOp) (i : Nat) :
    (emRun t ops).2[i]?
      = (ops[i]?).map fun op => (emStep (emRun t (ops.take i)).1 op).2 := by
  induction ops generalizing t i with
  | nil => simp [emRun]
  | cons op ops ih =>
    cases i with
    | zero => simp [emRun]
    | succ i =>
      simp only [emRun, List.getElem?_cons_succ, List.take_succ_cons]
      exact ih (emStep t op).1 i

/-- Claim C2: a callback registered via `wifi.eventmon.register` is only
invoked for firmware events occurring after its registration.  Each `fire`
of kind `k` delivers exactly the invocation list determined by the table in
force at that moment — `[cb]` when `cb` is registered (exactly once per
firmware event), `[]` when no callback is registered (the event is
permanently dropped); and a `register` operation never delivers anything,
so an already-fired event is never replayed to a later registration. -/
theorem eventmon_no_replay_exactly_once (ops : List EmOp) :
    (∀ (i : Nat) (k : EvKind), ops[i]? = some (EmOp.fire k) →
      (emRun emInit ops).2[i]? = some ((emTableAt ops i k).toList)) ∧
    (∀ (i : Nat) (k : EvKind) (cb : Nat), ops[i]? = some (EmOp.register k cb) →
      (emRun emInit ops).2[i]? = some ([] : List Nat)) := by
  constructor
  · intro i k hf
    rw [emRun_out_get emInit ops i, hf]
    rfl
  · intro i k cb hr
    rw [emRun_out_get emInit ops i, hr]
    rfl

/-- Witness for claim C2 at the spec scenario: a got-ip event fires before
any callback is registered for that kind; the event is dropped (empty
invocation list), not replayed to the callback registered afterwards. -/
theorem eventmon_no_replay_exactly_once_witness :
    (emRun emInit
      [EmOp.fire EvKind.STA_GOT_IP,
       EmOp.register EvKind.STA_GOT_IP 7,
       EmOp.fire EvKind.STA_GOT_IP]).2[0]? = some ([] : List Nat) := by
  have h := (eventmon_no_replay_exactly_once
    [EmOp.fire EvKind.STA_GOT_IP,
     EmOp.register EvKind.STA_GOT_IP 7,
     EmOp.fire EvKind.STA_GOT_IP]).1 0 EvKind.STA_GOT_IP rfl
  simpa [emTableAt, emRun, emInit] using h

theorem emRun_append_table (t : EmTable) (xs ys : List EmOp) :
    (emRun t (xs ++ ys)).1 = (emRun (emRun t xs).1 ys).1 := by
  induction xs generalizing t with
  | nil => rfl
  | cons x xs ih =>
    simp only [List.cons_append, emRun]
    exact ih (emStep t x).1

/-- Claim C7: the registration table maps each event kind to at most one
callback (it is `Option`-valued), and `wifi.eventmon.register` is a pure
overwrite: after any operation trace followed by `register k cb`, the entry
for `k` is exactly `cb` (a second registration replaces the first), every
other kind's entry is untouched, and a subsequent firmware event of kind
`k` invokes only the most recently registered callback. -/
theorem eventmon_register_overwrites (ops : List EmOp) (k : EvKind)
    (cb : Nat) :
    (emRun emInit (ops ++ [EmOp.register k cb])).1 k = some cb ∧
    (∀ k', k' ≠ k →
      (emRun emInit (ops ++ [EmOp.register k cb])).1 k'
        = (emRun emInit ops).1 k') ∧
    (emStep (emRun emInit (ops ++ [EmOp.register k cb])).1 (EmOp.fire k)).2
      = [cb] := by
  have htab : (emRun emInit (ops ++ [EmOp.register k cb])).1
      = fun k' => if k' = k then some cb
        else (emRun emInit ops).1 k' := by
    rw [emRun_append_table]
    rfl
  refine ⟨?_, ?_, ?_⟩
  · rw [htab]
    simp
  · intro k' hk'
    rw [htab]
    simp [hk']
  · rw [emStep, htab]
    simp

/-- Witness for claim C7: registering callback 2 for got-ip after callback
1 leaves got-ip mapped to 2, leaves the connected kind untouched, and a
got-ip event then invokes only callback 2. -/
theorem eventmon_register_overwrites_witness :
    (emRun emInit
      ([EmOp.register EvKind.STA_GOT_IP 1] ++ [EmOp.register EvKind.STA_GOT_IP 2])).1
      EvKind.STA_GOT_IP = some 2 ∧
    (emRun emInit
      ([EmOp.register EvKind.STA_GOT_IP 1] ++ [EmOp.register EvKind.STA_GOT_IP 2])).1
      EvKind.STA_CONNECTED
      = (emRun emInit [EmOp.register EvKind.STA_GOT_IP 1]).1 EvKind.STA_CONNECTED ∧
    (emStep
      (emRun emInit
        ([EmOp.register EvKind.STA_GOT_IP 1] ++ [EmOp.register EvKind.STA_GOT_IP 2])).1
      (EmOp.fire EvKind.STA_GOT_IP)).2 = [2] := by
  have h := eventmon_register_overwrites
    [EmOp.register EvKind.STA_GOT_IP 1] EvKind.STA_GOT_IP 2
  exact ⟨h.1, h.2.1 EvKind.STA_CONNECTED (by decide), h.2.2⟩

/-! ## RTC wall-clock time (rtctime module) -/

/-- Modelled from the spec: the state of the RTC clock.  `keeping` records
whether the module has started keeping time (a `set` has happened);
`cur` is the wall-clock timestamp in microseconds that `get` currently
reports; `target` is the true-time estimate the clock converges to; `rate`
is the stored clock-rate offset. -/
structure RtcClock where
  keeping : Bool
  cur : Nat
  target : Nat
  rate : Nat
deriving DecidableEq, Repr

/-- The initial RTC clock state: time has never been set. -/
def RtcClock.init : RtcClock := ⟨false, 0, 0, 0⟩

/-- Events at the RTC clock: one microsecond of real time passing, a
`rtctime.set(seconds, microseconds, rate?)` call, or a `rtctime.get()`
call. -/
inductive RtcEvent
  | tick
  | set (sec : Nat) (usec : Nat) (rate : Option Nat)
  | get
deriving DecidableEq, Repr

/-- A (seconds, microseconds) pair as a single microsecond count. -/
def toUs (sec usec : Nat) : Nat := sec * 1000000 + usec

/-- The timestamp `rtctime.get()` reports from a state: the kept wall-clock
time, or zero if time has never been set. -/
def RtcClock.observed (s : RtcClock) : Nat :=
  if s.keeping then s.cur else 0

/-- Modelled from the spec: one step of the RTC clock.

  * `tick`: while keeping time, the true-time estimate advances one
    microsecond; the reported clock slews — it catches up at double rate
    while behind the estimate, and stands still while ahead of it (after a
    `set` to an earlier time), so it never goes backwards.
  * `set`: the first call starts keeping time at the given timestamp;
    subsequent calls recalibrate — they move only the true-time estimate
    (and the stored rate, when given), never jumping the reported clock.
  * `get`: reports the observed timestamp without changing the state.

Returns the new state and the timestamp observed, if the event was a
`get`. -/
def rtcStep (s : RtcClock) : RtcEvent → RtcClock × Option Nat
  | .tick =>
    if s.keeping then
      let t := s.target + 1
      ({ s with cur := if s.cur < t then min (s.cur + 2) t else s.cur,
                target := t }, none)
    else
      (s, none)
  | .set sec usec r =>
    let t := toUs sec usec
    if s.keeping then
      ({ s with target := t, rate := r.getD s.rate }, none)
    else
      (⟨true, t, t, r.getD 0⟩, none)
  | .get => (s, some s.observed)

/-- Run a list of RTC events, collecting every timestamp observed by a
`get` in order. -/
def rtcRun (s : RtcClock) : List RtcEvent → RtcClock × List Nat
  | [] => (s, [])
  | e :: es =>
    let p := rtcStep s e
    let q := rtcRun p.1 es
    (q.1, p.2.toList ++ q.2)

theorem rtcStep_observed_mono (s : RtcClock) (e : RtcEvent) :
    s.observed ≤ (rtcStep s e).1.observed := by
  cases e with
  | tick =>
    simp only [rtcStep, RtcClock.observed]
    by_cases hk : s.keeping
    · simp only [hk, if_true]
      split <;> simp <;> omega
    · simp [hk]
  | set sec usec r =>
    simp only [rtcStep, RtcClock.observed]
    by_cases hk : s.keeping
    · simp [hk]
    · simp [hk]
  | get => exact le_refl _

theorem rtcStep_out_eq (s : RtcClock) (e : RtcEvent) (v : Nat)
    (h : (rtcStep s e).2 = some v) : v = s.observed ∧ (rtcStep s e).1 = s := by
  cases e with
  | tick =>
    simp only [rtcStep] at h
    split at h <;> simp at h
  | set sec usec r =>
    simp only [rtcStep] at h
    split at h <;> simp at h
  | get =>
    simp only [rtcStep] at h
    exact ⟨(Option.some.inj h).symm, rfl⟩

theorem rtcRun_obs_lb (s : RtcClock) (es : List RtcEvent) :
    ∀ v ∈ (rtcRun s es).2, s.observed ≤ v := by
  induction es generalizing s with
  | nil => simp [rtcRun]
  | cons e es ih =>
    intro v hv
    simp only [rtcRun, List.mem_append] at hv
    rcases hv with hv | hv
    · rcases Option.mem_toList.mp hv with ho
      have := rtcStep_out_eq s e v ho
      omega
    · calc s.observed ≤ (rtcStep s e).1.observed := rtcStep_observed_mono s e
        _ ≤ v := ih (rtcStep s e).1 v hv

theorem rtcRun_pairwise (s : RtcClock) (es : List RtcEvent) :
    List.Pairwise (· ≤ ·) (rtcRun s es).2 := by
  induction es generalizing s with
  | nil => simp [rtcRun]
  | cons e es ih =>
    simp only [rtcRun]
    rcases ho : (rtcStep s e).2 with _ | v
    · simpa using ih (rtcStep s e).1
    · have hv := rtcStep_out_eq s e v ho
      simp only [Option.toList_some, List.singleton_append, List.pairwise_cons]
      constructor
      · intro w hw
        have hlb := rtcRun_obs_lb (rtcStep s e).1 es w hw
        rw [hv.2] at hlb
        omega
      · exact ih (rtcStep s e).1

/-- The seconds value supplied by a `set` event, if it is one. -/
def RtcEvent.setSecs : RtcEvent → Option Nat
  | .set s _ _ => some s
  | _ => none

/-- A trace in which some `set` supplies a seconds value strictly less than
the seconds of an earlier `set` (a backwards resynchronization). -/
def hasBackwardSet (es : List RtcEvent) : Prop :=
  ∃ (i j a b : Nat), i < j ∧
    (es[i]?.bind RtcEvent.setSecs) = some a ∧
    (es[j]?.bind RtcEvent.setSecs) = some b ∧ b < a

/-- Claim C1: for every sequence of RTC events in which some `set` supplies
a seconds value strictly less than an earlier `set`'s effective seconds,
the timestamps returned by the `get` calls never decrease — every `get`
after the backwards `set` returns a value greater than or equal to every
previously observed timestamp, because resynchronization slews the clock
rather than jumping it backwards.  (The observed timestamps are in fact
monotone along every trace.) -/
theorem rtctime_monotone_under_backward_set (es : List RtcEvent)
    (_h : hasBackwardSet es) :
    List.Pairwise (· ≤ ·) (rtcRun RtcClock.init es).2 :=
  rtcRun_pairwise RtcClock.init es

/-- Witness for claim C1: setting the clock to second 100, then
resynchronizing backwards to second 50, still yields monotone `get`
observations. -/
theorem rtctime_monotone_under_backward_set_witness :
    List.Pairwise (· ≤ ·)
      (rtcRun RtcClock.init
        [RtcEvent.get,
         RtcEvent.set 100 0 none,
         RtcEvent.get,
         RtcEvent.tick,
         RtcEvent.set 50 0 none,
         RtcEvent.get,
         RtcEvent.tick,
         RtcEvent.get]).2 :=
  rtctime_monotone_under_backward_set _
    ⟨1, 4, 100, 50, by omega, rfl, rfl, by omega⟩

end NodeMCU
